import Mathlib

/-!
Verification development for the ecl2df repository (fipreports.py and
pvt2df.py).  The Python source is shallowly embedded: lines of text are
lists of characters, Python exceptions are an explicit error type, and
numeric values parsed by `float`/`int` are modelled as exact rationals /
integers (the report fields are finite decimal literals, which rationals
represent exactly; note that in this model `-0.` parses to `0`, which
agrees with IEEE equality `-0.0 == 0.0`).
-/

set_option maxRecDepth 100000

namespace Ecl2df

/-- Lines of text are modelled as lists of characters. -/
abbrev Chars := List Char

/-- Coerce a Lean string literal to the character-list model. -/
def str2cs (s : String) : Chars := s.data

/-- Python whitespace characters, as recognised by `str.split()`,
`str.strip()` and `float()`/`int()` (ASCII subset, which is all that
occurs in PRT report lines). -/
def isPySpace (c : Char) : Bool :=
  c.toNat == 32 || (9 ≤ c.toNat && c.toNat ≤ 13)

/-- Python `line.split(sep)` for a single-character separator: splits at
every occurrence, keeping empty pieces (`"".split(sep) == [""]`). -/
def splitOnChar (sep : Char) : Chars → List Chars
  | [] => [[]]
  | c :: cs =>
    if c == sep then [] :: splitOnChar sep cs
    else
      match splitOnChar sep cs with
      | [] => [[c]]
      | p :: ps => (c :: p) :: ps

/-- Helper for `pyWords`: `acc` is the current word, reversed. -/
def pyWordsAux : Chars → Chars → List Chars
  | [], acc => if acc.isEmpty then [] else [acc.reverse]
  | c :: cs, acc =>
    if isPySpace c then
      if acc.isEmpty then pyWordsAux cs [] else acc.reverse :: pyWordsAux cs []
    else pyWordsAux cs (c :: acc)

/-- Python `s.split()` (no argument): split on runs of whitespace,
dropping empty pieces. -/
def pyWords (l : Chars) : List Chars := pyWordsAux l []

/-- Python `s.strip()`: remove leading and trailing whitespace. -/
def pyStrip (s : Chars) : Chars :=
  ((s.dropWhile isPySpace).reverse.dropWhile isPySpace).reverse

/-- The Python exceptions raised by the embedded code.  All the
`...ValueError` constructors are `ValueError` in Python, distinguished
here by their raise site / message. -/
inductive PErr where
  /-- `ValueError("fipname must start with FIP")` -/
  | fipStartValueError
  /-- `ValueError("fipname can be at most 8 characters")` -/
  | fipLenValueError
  /-- `ValueError` from `float(...)` on a malformed literal -/
  | floatValueError
  /-- `ValueError` from `int(...)` on a malformed literal -/
  | intValueError
  /-- `ValueError` from tuple unpacking with the wrong number of values -/
  | unpackValueError
  /-- `ValueError` from `datetime.date(...)` on an out-of-range field -/
  | dateValueError
  /-- `TypeError` (e.g. `list(None)`) -/
  | typeError
  /-- `IndexError` from sequence indexing -/
  | indexError
  /-- `KeyError` from dictionary lookup -/
  | keyError
deriving DecidableEq, Repr

instance {ε α : Type} [DecidableEq ε] [DecidableEq α] : DecidableEq (Except ε α) := fun x y =>
  match x, y with
  | .ok a, .ok b => if h : a = b then .isTrue (by rw [h]) else .isFalse (by simp [h])
  | .ok _, .error _ => .isFalse (by simp)
  | .error _, .ok _ => .isFalse (by simp)
  | .error a, .error b => if h : a = b then .isTrue (by rw [h]) else .isFalse (by simp [h])

/-- Lift an `Option` to `Except`, raising the given error on `none`
(models Python sequence indexing raising `IndexError` etc.). -/
def orRaise (e : PErr) : Option α → Except PErr α
  | none => .error e
  | some a => .ok a

/-- Digit run value, most significant first. -/
def digitsVal (ds : Chars) : Nat :=
  ds.foldl (fun acc c => 10 * acc + (c.toNat - 48)) 0

/-- Helper for `parsePyInt`: the part after the optional sign. -/
def parsePyIntBody (neg : Bool) (t : Chars) : Except PErr Int :=
  if (t.takeWhile Char.isDigit).isEmpty || !(t.dropWhile Char.isDigit).isEmpty then
    .error .intValueError
  else .ok (if neg then -(digitsVal (t.takeWhile Char.isDigit) : Int)
            else (digitsVal (t.takeWhile Char.isDigit) : Int))

/-- Python `int(s)`: strip whitespace, optional sign, then a nonempty
run of digits consuming the whole remaining string.  (Underscore
separators, accepted by CPython, do not occur in report files and are
not modelled.) -/
def parsePyInt (s : Chars) : Except PErr Int :=
  match pyStrip s with
  | '-' :: r => parsePyIntBody true r
  | '+' :: r => parsePyIntBody false r
  | t => parsePyIntBody false t

/-- Helper for `parsePyFloat`: the exponent digits, for a mantissa `m`
already carrying the sign and a fraction of length `flen`. -/
def parsePyFloatExpTail (m : Int) (flen : Nat) (eneg : Bool) (r2 : Chars) : Except PErr ℚ :=
  if (r2.takeWhile Char.isDigit).isEmpty || !(r2.dropWhile Char.isDigit).isEmpty then
    .error .floatValueError
  else if eneg then
    .ok (Rat.divInt m ((10 : Int) ^ (flen + digitsVal (r2.takeWhile Char.isDigit))))
  else
    .ok (Rat.divInt (m * (10 : Int) ^ digitsVal (r2.takeWhile Char.isDigit))
      ((10 : Int) ^ flen))

/-- Helper for `parsePyFloat`: integer digits `ip`, fraction digits
`fp` and the rest `t2` (empty or an exponent part). -/
def parsePyFloatExp (neg : Bool) (ip fp t2 : Chars) : Except PErr ℚ :=
  if ip.isEmpty && fp.isEmpty then .error .floatValueError
  else
    let m : Int :=
      if neg then -(digitsVal (ip ++ fp) : Int) else (digitsVal (ip ++ fp) : Int)
    match t2 with
    | [] => .ok (Rat.divInt m ((10 : Int) ^ fp.length))
    | c :: r =>
      if c == 'e' || c == 'E' then
        match r with
        | '-' :: r3 => parsePyFloatExpTail m fp.length true r3
        | '+' :: r3 => parsePyFloatExpTail m fp.length false r3
        | _ => parsePyFloatExpTail m fp.length false r
      else .error .floatValueError

/-- Helper for `parsePyFloat`: the part after the optional sign. -/
def parsePyFloatBody (neg : Bool) (t : Chars) : Except PErr ℚ :=
  match t.dropWhile Char.isDigit with
  | '.' :: r =>
    parsePyFloatExp neg (t.takeWhile Char.isDigit) (r.takeWhile Char.isDigit)
      (r.dropWhile Char.isDigit)
  | t1 => parsePyFloatExp neg (t.takeWhile Char.isDigit) [] t1

/-- Python `float(s)` restricted to finite decimal/exponent literals:
strip whitespace, optional sign, integer digits, optional fraction,
optional exponent, consuming the whole string.  (`inf`/`nan` and
underscore separators never occur in report files and are not
modelled.)  The value is returned as an exact rational, built with
`Rat.divInt` so that it evaluates inside the kernel. -/
def parsePyFloat (s : Chars) : Except PErr ℚ :=
  match pyStrip s with
  | '-' :: r => parsePyFloatBody true r
  | '+' :: r => parsePyFloatBody false r
  | t => parsePyFloatBody false t

/-- Shorthand for an integer-valued rational, in a form that evaluates
inside the kernel (the `Neg`/`OfNat` rational operations in the ambient
library are irreducible). -/
def q (n : Int) : ℚ := Rat.divInt n 1

/-- Substring containment, modelling the Python `in` operator on
strings. -/
def containsSub : Chars → Chars → Bool
  | n, [] => n.isEmpty
  | n, c :: cs => n.isPrefixOf (c :: cs) || containsSub n cs

namespace fipreports

/-- Allowed row-name line starts (fipreports.py line 62). -/
def sAllowed1 : String := " :CURRENTLY"

/-- Allowed row-name line starts (fipreports.py line 62). -/
def sAllowed2 : String := " :OUTFLOW"

/-- Allowed row-name line starts (fipreports.py line 62). -/
def sAllowed3 : String := " :MATERIAL"

/-- Allowed row-name line starts (fipreports.py line 62). -/
def sAllowed4 : String := " :ORIGINALLY"

/-- Row-label of outflow-to-region rows (fipreports.py line 67). -/
def sOutflowToRegion : String := "OUTFLOW TO REGION"

/-- The allowed line starts of `report_block_lineparser`. -/
def allowed_line_starts : List Chars :=
  [str2cs sAllowed1, str2cs sAllowed2, str2cs sAllowed3, str2cs sAllowed4]

/-- One parsed report data line: the tuple returned by
`report_block_lineparser` (fipreports.py lines 91-101).  Fields that the
source may leave as Python `None` are `Option`s; `total_oil`,
`total_water` and `total_gas` are always set on success. -/
structure ReportRow where
  row_name : Chars
  to_region : Option Int
  liquid_oil : Option ℚ
  vapour_oil : Option ℚ
  total_oil : ℚ
  total_water : ℚ
  free_gas : Option ℚ
  dissolved_gas : Option ℚ
  total_gas : ℚ
deriving DecidableEq

/-- Oil-field parsing of `report_block_lineparser` (fipreports.py lines
73-82): three tokens give `(liquid, vapour, total)`, one token gives
only `total`, two tokens give `(liquid, None, total)`; any other token
count fails the tuple unpacking with a `ValueError` (after Python has
lazily evaluated `float` on the first three tokens). -/
def parseOilField (sec : Chars) : Except PErr (Option ℚ × Option ℚ × ℚ) := do
  let toks := pyWords sec
  if toks.length == 3 then
    match toks with
    | [a, b, c] => do
      let lq ← parsePyFloat a
      let vp ← parsePyFloat b
      let tt ← parsePyFloat c
      return (some lq, some vp, tt)
    | _ => .error .unpackValueError
  else if toks.length == 1 then do
    let tt ← parsePyFloat sec
    return (none, none, tt)
  else
    match toks with
    | [a, b] => do
      let lq ← parsePyFloat a
      let tt ← parsePyFloat b
      return (some lq, none, tt)
    | a :: b :: c :: _ => do
      let _ ← parsePyFloat a
      let _ ← parsePyFloat b
      let _ ← parsePyFloat c
      .error .unpackValueError
    | _ => .error .unpackValueError

/-- Gas-field parsing of `report_block_lineparser` (fipreports.py lines
85-90): one token gives only `total`; anything else is unpacked as
`(free, dissolved, total)`, which raises a `ValueError` unless there are
exactly three tokens (Python lazily evaluates `float` on at most the
first four tokens before the unpacking fails). -/
def parseGasField (sec : Chars) : Except PErr (Option ℚ × Option ℚ × ℚ) := do
  let toks := pyWords sec
  if toks.length == 1 then do
    let tt ← parsePyFloat sec
    return (none, none, tt)
  else
    match toks with
    | [a, b, c] => do
      let fr ← parsePyFloat a
      let ds ← parsePyFloat b
      let tt ← parsePyFloat c
      return (some fr, some ds, tt)
    | [a, b] => do
      let _ ← parsePyFloat a
      let _ ← parsePyFloat b
      .error .unpackValueError
    | a :: b :: c :: d :: _ => do
      let _ ← parsePyFloat a
      let _ ← parsePyFloat b
      let _ ← parsePyFloat c
      let _ ← parsePyFloat d
      .error .unpackValueError
    | _ => .error .unpackValueError

/-- Embedding of `report_block_lineparser` (fipreports.py lines 55-101).
Returns `.ok none` for a line that does not start with an allowed
row-name (Python `return None`), `.ok (some row)` for a parsed line, and
`.error e` when the Python code would raise. -/
def report_block_lineparser (line : Chars) : Except PErr (Option ReportRow) :=
  if !(allowed_line_starts.any (fun p => p.isPrefixOf line)) then .ok none
  else do
    let colonsections := splitOnChar ':' line
    let (row_name, to_region) ←
      if containsSub (str2cs sOutflowToRegion) line then do
        let sec1 ← orRaise .indexError (colonsections.get? 1)
        let tok ← orRaise .indexError ((pyWords sec1).get? 3)
        let ti ← parsePyInt tok
        pure (str2cs sOutflowToRegion, some ti)
      else do
        let sec1 ← orRaise .indexError (colonsections.get? 1)
        pure (pyStrip sec1, (none : Option Int))
    let sec2 ← orRaise .indexError (colonsections.get? 2)
    let (liquid_oil, vapour_oil, total_oil) ← parseOilField sec2
    let sec3 ← orRaise .indexError (colonsections.get? 3)
    let total_water ← parsePyFloat sec3
    let sec4 ← orRaise .indexError (colonsections.get? 4)
    let (free_gas, dissolved_gas, total_gas) ← parseGasField sec4
    return some {
      row_name := row_name
      to_region := to_region
      liquid_oil := liquid_oil
      vapour_oil := vapour_oil
      total_oil := total_oil
      total_water := total_water
      free_gas := free_gas
      dissolved_gas := dissolved_gas
      total_gas := total_gas }

/-- Literal `"REPORT"` used by both regexes (fipreports.py lines 133-134). -/
def sREPORT : String := "REPORT"

/-- Literal `"REGION"` of the block-open regex (fipreports.py line 134). -/
def sREGION : String := "REGION"

/-- Mandatory prefix of `fipname` (fipreports.py line 120). -/
def sFIP : String := "FIP"

/-- Block-close marker prefix (fipreports.py line 155): one space and 28
equals signs. -/
def closeMarkerCs : Chars := ' ' :: List.replicate 28 '='

/-- Left-margin marker of data lines inside a block (fipreports.py line 160). -/
def sLeftMargin : String := " :"

/-- Dashed separator row start, skipped inside blocks (fipreports.py line 160). -/
def sLeftMarginDashes : String := " :--"

/-- Drop a literal from the front of a line, failing when it is not a
prefix (a literal piece of a regex). -/
def dropLit (lit l : Chars) : Option Chars :=
  if lit.isPrefixOf l then some (l.drop lit.length) else none

/-- Match one-or-more characters satisfying `p` (a greedy `X+` regex
piece), returning the run and the rest.  In the two regexes of
fipreports.py every `+`-piece is followed by a disjoint character class
or literal, so greedy maximal munch is exact. -/
def munch1 (p : Char → Bool) (l : Chars) : Option (Chars × Chars) :=
  let run := l.takeWhile p
  if run.isEmpty then none else some (run, l.dropWhile p)

/-- Python regex `\w` (ASCII subset, which is all the PRT files use). -/
def isWordChar (c : Char) : Bool := c.isAlphanum || c == '_'

/-- Embedding of `re.match` of the date regex
`\s\sREPORT\s+(\d+)\s+(\d+)\s+(\w+)\s+(\d+)` (fipreports.py line 133):
returns `(step, day, month-name, year)` = groups 1-4. -/
def matchDateLine (l : Chars) : Option (Nat × Nat × Chars × Nat) :=
  match l with
  | c0 :: c1 :: rest =>
    if isPySpace c0 && isPySpace c1 then do
      let rest ← dropLit (str2cs sREPORT) rest
      let (_, rest) ← munch1 isPySpace rest
      let (g1, rest) ← munch1 Char.isDigit rest
      let (_, rest) ← munch1 isPySpace rest
      let (g2, rest) ← munch1 Char.isDigit rest
      let (_, rest) ← munch1 isPySpace rest
      let (g3, rest) ← munch1 isWordChar rest
      let (_, rest) ← munch1 isPySpace rest
      let (g4, _) ← munch1 Char.isDigit rest
      some (digitsVal g1, digitsVal g2, g3, digitsVal g4)
    else none
  | _ => none

/-- Month-name key of the Eclipse month map. -/
def sJAN : String := "JAN"

/-- Month-name key of the Eclipse month map. -/
def sFEB : String := "FEB"

/-- Month-name key of the Eclipse month map. -/
def sMAR : String := "MAR"

/-- Month-name key of the Eclipse month map. -/
def sAPR : String := "APR"

/-- Month-name key of the Eclipse month map. -/
def sMAY : String := "MAY"

/-- Month-name key of the Eclipse month map. -/
def sJUN : String := "JUN"

/-- Month-name key of the Eclipse month map. -/
def sJLY : String := "JLY"

/-- Month-name key of the Eclipse month map. -/
def sJUL : String := "JUL"

/-- Month-name key of the Eclipse month map. -/
def sAUG : String := "AUG"

/-- Month-name key of the Eclipse month map. -/
def sSEP : String := "SEP"

/-- Month-name key of the Eclipse month map. -/
def sOCT : String := "OCT"

/-- Month-name key of the Eclipse month map. -/
def sNOV : String := "NOV"

/-- Month-name key of the Eclipse month map. -/
def sDEC : String := "DEC"

/-- Modelled from the spec: `parse_ecl_month` is imported from
`ecl2df.common`, which is not among the source files; the spec only
says a date line carries a month name.  Modelled as the standard
Eclipse month-name table (including the `JLY` variant), raising
`KeyError` for an unknown name as a Python dict lookup would. -/
def parse_ecl_month (m : Chars) : Except PErr Nat :=
  orRaise .keyError
    (((([(sJAN, 1), (sFEB, 2), (sMAR, 3), (sAPR, 4), (sMAY, 5), (sJUN, 6),
        (sJLY, 7), (sJUL, 7), (sAUG, 8), (sSEP, 9), (sOCT, 10), (sNOV, 11),
        (sDEC, 12)] : List (String × Nat)).find?
          (fun p => str2cs p.1 == m)).map (·.2)))

/-- Gregorian leap-year rule, as used by `datetime.date`. -/
def isLeapYear (y : Nat) : Bool :=
  y % 4 == 0 && (y % 100 != 0 || y % 400 == 0)

/-- Days in a month, as validated by `datetime.date`. -/
def daysInMonth (m y : Nat) : Nat :=
  if m == 2 then (if isLeapYear y then 29 else 28)
  else if m == 4 || m == 6 || m == 9 || m == 11 then 30
  else 31

/-- A `datetime.date` value. -/
structure PyDate where
  year : Nat
  month : Nat
  day : Nat
deriving DecidableEq

/-- Embedding of `datetime.date(year=..., month=parse_ecl_month(...),
day=...)` (fipreports.py lines 140-144), with the range validation
`datetime.date` performs. -/
def buildDate (year : Nat) (monname : Chars) (day : Nat) : Except PErr PyDate := do
  let m ← parse_ecl_month monname
  if 1 ≤ year && year ≤ 9999 && 1 ≤ day && day ≤ daysInMonth m year then
    .ok ⟨year, m, day⟩
  else .error .dateValueError

/-- Tail of the block-open regex after the greedy `.+`: the literal
`fipname`, then `\s+REPORT\s+REGION\s+(\d+)` (fipreports.py line 134).
Returns group 1 as a number. -/
def openTailMatch (fip t : Chars) : Option Nat := do
  let rest ← dropLit fip t
  let (_, rest) ← munch1 isPySpace rest
  let rest ← dropLit (str2cs sREPORT) rest
  let (_, rest) ← munch1 isPySpace rest
  let rest ← dropLit (str2cs sREGION) rest
  let (_, rest) ← munch1 isPySpace rest
  let (g, _) ← munch1 Char.isDigit rest
  some (digitsVal g)

/-- Try `openTailMatch` at every suffix, deepest (rightmost) first,
mirroring the backtracking of the greedy `.+`. -/
def openFindRight (fip : Chars) : Chars → Option Nat
  | [] => none
  | c :: cs => (openFindRight fip cs).orElse (fun _ => openTailMatch fip (c :: cs))

/-- Embedding of `re.match` of the block-open regex
`.+<fipname>\s+REPORT\s+REGION\s+(\d+)` (fipreports.py lines 134, 149):
the `.+` must consume at least one character, so the `fipname` literal
is searched from position 1 on, rightmost occurrence first. -/
def openMatch (fip l : Chars) : Option Nat :=
  match l with
  | [] => none
  | _ :: xs => openFindRight fip xs

/-- The state variables of the scan loop of `df` (fipreports.py lines
128-131). -/
structure ScanState where
  date : Option PyDate
  in_block : Bool
  region_index : Option Nat
deriving DecidableEq

/-- One row of the resulting dataframe (fipreports.py lines 161-164):
`[date, fipname, region_index] + list(report_block_lineparser(line))`. -/
structure FipRecord where
  date : Option PyDate
  fipname : Chars
  region_index : Option Nat
  row : ReportRow
deriving DecidableEq

/-- Processing of a single line by the scan loop of `df` (fipreports.py
lines 137-164): date lines update the date, block-open lines enter a
block and set the region index, close-marker lines leave the block, and
inside a block a line starting with the left margin (but not a dashed
separator) is parsed and emitted.  `list(None)` on a line the line
parser rejects is Python `TypeError`. -/
def processLine (fip : Chars) (st : ScanState) (line : Chars) :
    Except PErr (ScanState × Option FipRecord) :=
  match matchDateLine line with
  | some (_, day, mon, year) => do
    let d ← buildDate year mon day
    .ok ({ st with date := some d }, none)
  | none =>
    match openMatch fip line with
    | some r => .ok ({ st with in_block := true, region_index := some r }, none)
    | none =>
      if closeMarkerCs.isPrefixOf line then
        .ok ({ st with in_block := false }, none)
      else if st.in_block then
        if (str2cs sLeftMargin).isPrefixOf line &&
            !((str2cs sLeftMarginDashes).isPrefixOf line) then
          match report_block_lineparser line with
          | .error e => .error e
          | .ok none => .error .typeError
          | .ok (some row) => .ok (st, some ⟨st.date, fip, st.region_index, row⟩)
        else .ok (st, none)
      else .ok (st, none)

/-- The scan loop of `df` over the input lines; an exception on any
line propagates and discards all records (Python raises out of the
`for` loop). -/
def scan (fip : Chars) (st : ScanState) : List Chars → Except PErr (List FipRecord)
  | [] => .ok []
  | l :: ls => do
    let (st2, rec?) ← processLine fip st l
    let rest ← scan fip st2 ls
    .ok (rec?.toList ++ rest)

/-- Embedding of the entry point `df` (fipreports.py lines 104-166):
validate `fipname`, then scan the lines of the PRT file from the
initial state. -/
def df (fipname : Chars) (lines : List Chars) : Except PErr (List FipRecord) :=
  if !((str2cs sFIP).isPrefixOf fipname) then .error .fipStartValueError
  else if fipname.length > 8 then .error .fipLenValueError
  else scan fipname ⟨none, false, none⟩ lines

end fipreports

namespace pvt2df

/-- The sizing keyword name (pvt2df.py lines 54, 80, 147). -/
def sTABDIMS : String := "TABDIMS"

/-- Text prepended before the count by `inject_ntpvt` (pvt2df.py line 57). -/
def sTabdimsPre : String := "TABDIMS\n 1* "

/-- Text appended after the count by `inject_ntpvt` (pvt2df.py line 57). -/
def sTabdimsPost : String := " /\n\n"

/-- Embedding of `inject_ntpvt` (pvt2df.py lines 40-57): when `TABDIMS`
already occurs in the deck text the text is returned unchanged,
otherwise a minimal `TABDIMS` record holding `ntpvt` (first field
defaulted with `1*`) is textually prepended.  Candidate counts are
naturals, as produced by dimension inference. -/
def inject_ntpvt (deckstr : Chars) (ntpvt : Nat) : Chars :=
  if containsSub (str2cs sTABDIMS) deckstr then deckstr
  else str2cs sTabdimsPre ++ (Nat.repr ntpvt).data ++ str2cs sTabdimsPost ++ deckstr

/-- Python exceptions and error outcomes of the pvt2df path.  The
`nameError` constructor stands for `NameError`/`UnboundLocalError`
(variables `ntpvt` and `satnum` are read without ever being assigned on
some paths); `ambiguousDimension` is the failure of exhausted dimension
inference. -/
inductive PvtErr where
  | keyError
  | indexError
  | typeError
  | nameError
  | ambiguousDimension
deriving DecidableEq, Repr

/-- An item of a deck record: a list of scalar values (numeric, which is
all the PVT keywords hold). -/
abbrev DeckItem := List ℚ

/-- A deck record: an ordered list of items. -/
abbrev DeckRecord := List DeckItem

/-- A parsed deck, as the core consumes it: ordered keyword sections,
each with its records (the dict-like access of the sunbeam deck). -/
abbrev ParsedDeck := List (String × List DeckRecord)

/-- A deck handed to the extraction functions: either raw text or an
already-parsed token model (`isinstance(deck, str)` distinguishes the
two in the source). -/
inductive DeckInput where
  | str (s : Chars)
  | parsed (d : ParsedDeck)

/-- Python `keyword in deck` for a parsed deck. -/
def hasKw (d : ParsedDeck) (k : String) : Bool := d.any (fun p => p.1 == k)

/-- Python `deck[keyword]` for a parsed deck: the records, or `KeyError`. -/
def getKwRecords (d : ParsedDeck) (k : String) : Except PvtErr (List DeckRecord) :=
  match d.find? (fun p => p.1 == k) with
  | some p => .ok p.2
  | none => .error .keyError

/-- Python `"TABDIMS" in deck` / `"TABDIMS" not in deck` (pvt2df.py
lines 54, 80, 147): substring test on a string deck, keyword membership
on a parsed deck. -/
def tabdimsIn : DeckInput → Bool
  | .str s => containsSub (str2cs sTABDIMS) s
  | .parsed d => hasKw d sTABDIMS

/-- Python truthiness of the optional count argument (`if not
pvtnumcount:`): `None` and `0` are falsy. -/
def pyFalsy : Option Nat → Bool
  | none => true
  | some n => n == 0

/-- Modelled from the spec: `inferdims.guess_dim` is imported from
`ecl2df.inferdims`, which is not among the source files.  Following
section 4.1 of the spec, it performs guess-by-reparse: starting from
the floor and increasing, it accepts the smallest candidate count whose
trial re-parse of the augmented deck succeeds, and fails with
`AmbiguousDimension` when no candidate up to the ceiling succeeds.  The
trial re-parse (a collaborator call) is abstracted as the predicate
`parseOk`. -/
def guess_dim (parseOk : Nat → Bool) (floor ceiling : Nat) : Except PvtErr Nat :=
  match (List.range' floor (ceiling + 1 - floor)).find? parseOk with
  | some c => .ok c
  | none => .error .ambiguousDimension

/-- How `densitydeck2df` resolved the PVT region count (pvt2df.py lines
80-88). -/
inductive DimOutcome where
  /-- `TABDIMS` is present: the declared count governs, no inference. -/
  | declared
  /-- a parsed (non-string) deck without `TABDIMS`: the count is set to
  `1` with only a critical log (pvt2df.py lines 81-83). -/
  | silentOne
  /-- a truthy caller-supplied count is used without inference. -/
  | supplied (n : Nat)
  /-- the count was inferred by guess-by-reparse. -/
  | guessed (n : Nat)
deriving DecidableEq, Repr

/-- Embedding of the dimension-resolution logic of `densitydeck2df`
(pvt2df.py lines 80-88): with `TABDIMS` present nothing is inferred;
without it a parsed deck silently gets count 1 (overriding even a
caller-supplied count), while a string deck is guessed from when the
caller count is falsy. -/
def density_dim_resolution (deck : DeckInput) (pvtnumcount : Option Nat)
    (parseOk : Nat → Bool) (ceiling : Nat) : Except PvtErr DimOutcome :=
  if tabdimsIn deck then .ok .declared
  else
    match deck with
    | .parsed _ => .ok .silentOne
    | .str _ =>
      if pyFalsy pvtnumcount then
        match guess_dim parseOk 1 ceiling with
        | .ok c => .ok (.guessed c)
        | .error e => .error e
      else .ok (.supplied (pvtnumcount.getD 0))

/-- One row of the DENSITY dataframe (pvt2df.py lines 95-100). -/
structure DensityRow where
  pvtnum : Nat
  oildensity : ℚ
  waterdensity : ℚ
  gasdensity : ℚ
deriving DecidableEq, Repr

/-- The DENSITY keyword name. -/
def sDENSITY : String := "DENSITY"

/-- Sequence indexing raising `IndexError` in the pvt2df error type. -/
def orRaiseP {α : Type} : Option α → Except PvtErr α
  | none => .error .indexError
  | some a => .ok a

/-- Extraction of DENSITY rows from a parsed deck (pvt2df.py lines
90-102): one row per record, `PVTNUM` counting from 1, scalars taken as
`deckrecord[0][0]`, `deckrecord[1][0]`, `deckrecord[2][0]`. -/
def density_rows (d : ParsedDeck) : Except PvtErr (List DensityRow) := do
  let recs ← getKwRecords d sDENSITY
  recs.enum.mapM fun p => do
    let i0 ← orRaiseP (p.2.get? 0)
    let a ← orRaiseP (i0.get? 0)
    let i1 ← orRaiseP (p.2.get? 1)
    let b ← orRaiseP (i1.get? 0)
    let i2 ← orRaiseP (p.2.get? 2)
    let c ← orRaiseP (i2.get? 0)
    pure ⟨p.1 + 1, a, b, c⟩

/-- Embedding of `densitydeck2df` (pvt2df.py lines 79-102): dimension
resolution, then (only in the guessed case) re-parsing of the augmented
deck text via the collaborator `reparseD`, then row extraction.  A deck
that is still a string when the extraction loop runs raises `TypeError`
(`deck['DENSITY']` on a `str`). -/
def densitydeck2df (reparseD : Nat → Except PvtErr ParsedDeck)
    (parseOk : Nat → Bool) (ceiling : Nat)
    (deck : DeckInput) (pvtnumcount : Option Nat) : Except PvtErr (List DensityRow) := do
  let outcome ← density_dim_resolution deck pvtnumcount parseOk ceiling
  let deck2 : DeckInput ←
    match outcome, deck with
    | .guessed c, .str _ => DeckInput.parsed <$> reparseD c
    | _, _ => pure deck
  match deck2 with
  | .str _ => .error .typeError
  | .parsed d => density_rows d

/-- Embedding of `KEYWORD_COLUMNS` (pvt2df.py lines 30-37), in the
source insertion order (which is the Python 3.7+ dict iteration
order). -/
def KEYWORD_COLUMNS : List (String × List String) :=
  [(r"DENSITY", [r"PVTNUM", r"OILDENSITY", r"WATERDENSITY", r"GASDENSITY"]),
   (r"PVTW", [r"PVTNUM", r"PRESSURE", r"VOLUMEFACTOR", r"COMPRESSIBILITY",
              r"VISCOSITY", r"VISCOSIBILITY"]),
   (r"PVTO", [r"PVTNUM", r"GOR", r"PRESSURE", r"VOLUMEFACTOR", r"VISCOSITY"]),
   (r"PVTG", [r"PVTNUM", r"PRESSURE", r"RV", r"VOLUMEFACTOR", r"VISCOSITY"]),
   (r"PVDG", [r"PVTNUM", r"PRESSURE", r"VOLUMEFACTOR", r"VISCOSITY"]),
   (r"ROCK", [r"PVTNUM", r"PRESSURE", r"COMPRESSIBILITY"])]

/-- One row of the long-format PVT table `deck2df` is documented to
return (pvt2df.py lines 195-201).  No row is ever actually produced by
the source: building one reads the never-assigned variable `satnum`. -/
structure PvtRow where
  keyword : String
  satnum : Nat
  values : List ℚ
deriving DecidableEq, Repr

/-- The per-record body of the extraction loop of `deck2df` (pvt2df.py
lines 186-203): take the record's first item as the flat data; when its
length is not a multiple of the schema column count, log and `return`
(which makes `deck2df` return Python `None`, modelled as the `.ok none`
outcome); otherwise reshaping succeeds and the source next evaluates
`df["SATNUM"] = satnum`, reading the never-assigned variable `satnum`,
which raises `UnboundLocalError` (`.nameError`).  A record with no items
raises on `deckrecord[0]`.  `.ok (some ())` means the loop ran through
all records and control continues with the next keyword. -/
def processKwRecords (c : Nat) : List DeckRecord → Except PvtErr (Option Unit)
  | [] => .ok (some ())
  | r :: _ => do
    let data ← orRaiseP (r.get? 0)
    if data.length % c != 0 then .ok none
    else .error .nameError

/-- The keyword loop of `deck2df` (pvt2df.py lines 183-203): keywords
of `KEYWORD_COLUMNS` present in the deck are processed in order;
`.ok none` models the early `return` (Python `None`) on a schema
mismatch. -/
def deck2df_kwloop (d : ParsedDeck) : List (String × List String) → Except PvtErr (Option Unit)
  | [] => .ok (some ())
  | (kw, cols) :: rest => do
    if hasKw d kw then do
      let recs ← getKwRecords d kw
      match ← processKwRecords cols.length recs with
      | none => pure none
      | some () => deck2df_kwloop d rest
    else deck2df_kwloop d rest

/-- Embedding of `deck2df` (pvt2df.py lines 119-209).  The TABDIMS
handling of lines 147-177: a string deck without `TABDIMS` reads the
never-assigned variable `ntpvt` (`UnboundLocalError`); a parsed deck
without `TABDIMS` sets `ntpvt = 1` and therefore takes the `else`
branch, re-parsing an augmented deck built from `satnumcount` (the
collaborator pipeline `inject_dimcount` + `str2deck` is abstracted as
`reparse`).  Then `densitydeck2df` runs on line 181, and the keyword
loop follows.  `.ok none` is Python returning `None`; `.ok (some rows)`
is a returned dataframe (necessarily empty, see `processKwRecords`). -/
def deck2df (reparse : Option Nat → Except PvtErr ParsedDeck)
    (reparseD : Nat → Except PvtErr ParsedDeck)
    (parseOk : Nat → Bool) (ceiling : Nat)
    (deck : DeckInput) (satnumcount : Option Nat) :
    Except PvtErr (Option (List PvtRow)) := do
  let deck2 : DeckInput ←
    match deck with
    | .str s =>
      if !(containsSub (str2cs sTABDIMS) s) then .error .nameError
      else pure (DeckInput.str s)
    | .parsed d =>
      if !(hasKw d sTABDIMS) then do
        let d2 ← reparse satnumcount
        pure (DeckInput.parsed d2)
      else pure (DeckInput.parsed d)
  let _ ← densitydeck2df reparseD parseOk ceiling deck2 none
  match deck2 with
  | .str _ => .error .typeError
  | .parsed d =>
    match ← deck2df_kwloop d KEYWORD_COLUMNS with
    | none => pure none
    | some () => pure (some ([] : List PvtRow))

end pvt2df

/-! Concrete inputs used by the theorems below: the two data lines the
spec quotes, block-open/close and malformed lines, and small decks. -/

/-- The CURRENTLY IN PLACE line quoted in the spec (section 8). -/
def lineCurrentlyInPlace : String := " :CURRENTLY IN PLACE       :     21091398.                    21091398.:       4590182. :           -0.    483594842.     483594842."

/-- The OUTFLOW TO REGION line quoted in the spec (section 8). -/
def lineOutflowToRegion : String := " :OUTFLOW TO REGION   1    :       143128.                      143128.:       -161400. :            0.      3017075.       3017075."

/-- A data line with an allowed row-name whose gas field holds exactly
two numeric tokens. -/
def lineGasTwoTokens : String := " :CURRENTLY IN PLACE :1. 2.:3. :4. 5."

/-- A data line with an allowed row-name whose oil field holds four
numeric tokens (outside the three recognized shapes). -/
def lineOilFourTokens : String := " :CURRENTLY IN PLACE :1. 2. 3. 4.:5. :6. 7. 8."

/-- A block-open line for FIPNUM region 2. -/
def lineBlockOpen2 : String := "                                                : FIPNUM  REPORT REGION    2    :"

/-- A block-close marker line (full row of 132 equals signs). -/
def lineBlockCloseCs : Chars := ' ' :: List.replicate 132 '='

/-- A line inside a block starting with the left margin but matching no
allowed row-name. -/
def lineUnknownRow : String := " :FOO"

/-- A dashed separator row inside a block. -/
def lineDashedRowCs : Chars := str2cs fipreports.sLeftMarginDashes ++ List.replicate 40 '-'

/-- The stripped CURRENTLY IN PLACE row label. -/
def sCurrentlyInPlace : String := "CURRENTLY IN PLACE"

/-- The fipname used in concrete scan runs. -/
def sFIPNUM : String := "FIPNUM"

/-- An oil/gas section with three numeric tokens. -/
def sec3Tokens : String := "1. 2. 3."

/-- An oil/gas section with one numeric token. -/
def sec1Token : String := "   4.5  "

/-- An oil/gas section with two numeric tokens. -/
def sec2Tokens : String := "1. 2."

/-- The gas section of `lineGasTwoTokens`. -/
def sec2TokensGas : String := "4. 5."

/-- Token text of the numeral 1. -/
def sTok1 : String := "1."

/-- Token text of the numeral 2. -/
def sTok2 : String := "2."

/-- Token text of the numeral 3. -/
def sTok3 : String := "3."

/-- A small parsed deck without a TABDIMS section. -/
def deckNoTabdims : pvt2df.ParsedDeck :=
  [(pvt2df.sDENSITY, [[[q 860], [q 999], [q 1]]])]

/-- The PVTW keyword name. -/
def sPVTW : String := "PVTW"

/-- A deck text holding only an SWOF keyword (no TABDIMS). -/
def sSwofDeck : String := "SWOF 0 0 1 0 1 1 0 0 /"

/-- A region-parameter name not starting with FIP. -/
def sNotFipName : String := "SWAT"

/-- Errors that are not one of the two fipname-validation ValueErrors
of `df` (fipreports.py lines 120-123). -/
def NotFip (e : PErr) : Prop :=
  e ≠ PErr.fipStartValueError ∧ e ≠ PErr.fipLenValueError

/-- A parsed deck with TABDIMS, a DENSITY record whose flat data length
3 is not a multiple of the DENSITY schema width 4, and a well-formed
PVTW sibling record of width 6. -/
def deckMismatchFirst : pvt2df.ParsedDeck :=
  [(pvt2df.sTABDIMS, [[[q 1]]]),
   (pvt2df.sDENSITY, [[[q 1, q 2, q 3], [q 9], [q 9]]]),
   (sPVTW, [[[q 1, q 2, q 3, q 4, q 5, q 6]]])]

/-- A parsed deck with TABDIMS and a DENSITY record whose flat data
length 4 is a multiple of the DENSITY schema width 4. -/
def deckWellFormedDensity : pvt2df.ParsedDeck :=
  [(pvt2df.sTABDIMS, [[[q 1]]]),
   (pvt2df.sDENSITY, [[[q 1, q 2, q 3, q 4], [q 9], [q 9]]])]

/-- A reparse oracle that always fails; the concrete runs below never
reach it (their decks hold TABDIMS). -/
def failOracle : Nat → Except pvt2df.PvtErr pvt2df.ParsedDeck :=
  fun _ => .error .keyError

/-- A reparse oracle over optional counts that always fails; the
concrete runs below never reach it. -/
def failOracleOpt : Option Nat → Except pvt2df.PvtErr pvt2df.ParsedDeck :=
  fun _ => .error .keyError

/-- The row emitted for `lineCurrentlyInPlace`. -/
def rowCurrentlyInPlace : fipreports.ReportRow where
  row_name := str2cs sCurrentlyInPlace
  to_region := none
  liquid_oil := some (q 21091398)
  vapour_oil := none
  total_oil := q 21091398
  total_water := q 4590182
  free_gas := some (q (-0))
  dissolved_gas := some (q 483594842)
  total_gas := q 483594842

/-- The row emitted for `lineOutflowToRegion`. -/
def rowOutflowRegion1 : fipreports.ReportRow where
  row_name := str2cs fipreports.sOutflowToRegion
  to_region := some 1
  liquid_oil := some (q 143128)
  vapour_oil := none
  total_oil := q 143128
  total_water := q (-161400)
  free_gas := some (q 0)
  dissolved_gas := some (q 3017075)
  total_gas := q 3017075

/-- The record emitted while scanning `lineCurrentlyInPlace` inside the
region-2 block opened by `lineBlockOpen2`, with no date seen. -/
def recRegion2 : fipreports.FipRecord where
  date := none
  fipname := str2cs sFIPNUM
  region_index := some 2
  row := rowCurrentlyInPlace

end Ecl2df

namespace Ecl2df

open fipreports pvt2df

/-- C3: parsing the quoted CURRENTLY IN PLACE line emits a row with
row_kind CurrentlyInPlace, liquid_oil 21091398.0, vapour_oil None,
total_oil 21091398.0, total_water 4590182.0, free_gas -0.0 (which
equals 0), dissolved_gas 483594842.0, total_gas 483594842.0; and
parsing the quoted OUTFLOW TO REGION line emits a row with row_kind
OutflowToRegion and to_region 1. -/
theorem c3_quoted_lines_parse :
    report_block_lineparser (str2cs lineCurrentlyInPlace) = .ok (some rowCurrentlyInPlace) ∧
    report_block_lineparser (str2cs lineOutflowToRegion) = .ok (some rowOutflowRegion1) := by
  constructor <;> decide

/-- C1, counterexample: a line with an allowed row-name whose gas field
holds exactly two numeric tokens does not parse to (free, None, total);
the tuple unpacking of the gas field raises a ValueError, so the claim
that the gas field is parsed by the same token-count dispatch as the
oil field is false. -/
theorem c1_gas_two_tokens_raises :
    (splitOnChar ':' (str2cs lineGasTwoTokens)).get? 4 = some (str2cs sec2TokensGas) ∧
    (pyWords (str2cs sec2TokensGas)).length = 2 ∧
    report_block_lineparser (str2cs lineGasTwoTokens) = .error .unpackValueError := by
  refine ⟨by decide, by decide, by decide⟩

/-- Helper: a bind in `Except` that errors comes from an erroring head
or an erroring continuation. -/
theorem except_bind_error {e1 a b : Type} (x : Except e1 a) (f : a → Except e1 b) (e : e1)
    (h : x >>= f = .error e) : x = .error e ∨ ∃ v, x = .ok v ∧ f v = .error e := by
  cases x with
  | ok v => right; exact ⟨v, rfl, h⟩
  | error e2 => left; simp only [Bind.bind, Except.bind] at h; simpa using h

/-- C1, amended: the oil field is parsed by the three-shape token-count
dispatch (three tokens give (liquid, vapour, total), one token gives
only total, two tokens give (liquid, None, total)); the gas field
supports only the three-token shape (free, dissolved, total) and the
one-token shape (total only); a gas field with exactly two numeric
tokens does not parse, the parse of that line failing with a
ValueError. -/
theorem c1_amended_dispatch (sec : Chars) :
    (∀ a b c qa qb qc, pyWords sec = [a, b, c] → parsePyFloat a = .ok qa →
      parsePyFloat b = .ok qb → parsePyFloat c = .ok qc →
      parseOilField sec = .ok (some qa, some qb, qc)) ∧
    (∀ a qt, pyWords sec = [a] → parsePyFloat sec = .ok qt →
      parseOilField sec = .ok (none, none, qt)) ∧
    (∀ a b qa qb, pyWords sec = [a, b] → parsePyFloat a = .ok qa →
      parsePyFloat b = .ok qb →
      parseOilField sec = .ok (some qa, none, qb)) ∧
    (∀ a qt, pyWords sec = [a] → parsePyFloat sec = .ok qt →
      parseGasField sec = .ok (none, none, qt)) ∧
    (∀ a b c qa qb qc, pyWords sec = [a, b, c] → parsePyFloat a = .ok qa →
      parsePyFloat b = .ok qb → parsePyFloat c = .ok qc →
      parseGasField sec = .ok (some qa, some qb, qc)) ∧
    (∀ a b, pyWords sec = [a, b] → ∃ e, parseGasField sec = .error e) := by
  refine ⟨?_, ?_, ?_, ?_, ?_, ?_⟩
  · intro a b c qa qb qc hw ha hb hc
    simp [parseOilField, Bind.bind, Except.bind, Pure.pure, Except.pure, hw, ha, hb, hc]
  · intro a qt hw ht
    simp [parseOilField, Bind.bind, Except.bind, Pure.pure, Except.pure, hw, ht]
  · intro a b qa qb hw ha hb
    simp [parseOilField, Bind.bind, Except.bind, Pure.pure, Except.pure, hw, ha, hb]
  · intro a qt hw ht
    simp [parseGasField, Bind.bind, Except.bind, Pure.pure, Except.pure, hw, ht]
  · intro a b c qa qb qc hw ha hb hc
    simp [parseGasField, Bind.bind, Except.bind, Pure.pure, Except.pure, hw, ha, hb, hc]
  · intro a b hw
    cases ha : parsePyFloat a with
    | error e => exact ⟨e, by simp [parseGasField, Bind.bind, Except.bind, Pure.pure, Except.pure, hw, ha]⟩
    | ok qa =>
      cases hb : parsePyFloat b with
      | error e => exact ⟨e, by simp [parseGasField, Bind.bind, Except.bind, Pure.pure, Except.pure, hw, ha, hb]⟩
      | ok qb => exact ⟨.unpackValueError, by simp [parseGasField, Bind.bind, Except.bind, Pure.pure, Except.pure, hw, ha, hb]⟩

/-- Witness for C1 amended: concrete two-token oil and gas fields. -/
theorem c1_amended_dispatch_witness :
    parseOilField (str2cs sec2Tokens) = .ok (some (q 1), none, q 2) ∧
    (∃ e, parseGasField (str2cs sec2TokensGas) = .error e) :=
  ⟨(c1_amended_dispatch (str2cs sec2Tokens)).2.2.1 (str2cs sTok1) (str2cs sTok2)
      (q 1) (q 2) (by decide) (by decide) (by decide),
   (c1_amended_dispatch (str2cs sec2TokensGas)).2.2.2.2.2
      (['4', '.']) (['5', '.']) (by decide)⟩


/-- C2, counterexample: in a stream holding a block-open line, then a
line with an allowed row-name whose oil field has four tokens, then a
well-formed data line, the scan does not drop the malformed row and
continue; the whole `df` call fails with the ValueError, emitting no
rows at all. -/
theorem c2_malformed_line_aborts :
    allowed_line_starts.any (fun p => p.isPrefixOf (str2cs lineOilFourTokens)) = true ∧
    (report_block_lineparser (str2cs lineCurrentlyInPlace)).toOption.isSome = true ∧
    df (str2cs sFIPNUM)
      [str2cs lineBlockOpen2, str2cs lineOilFourTokens, str2cs lineCurrentlyInPlace] =
      .error .unpackValueError := by
  refine ⟨by decide, by decide, by decide⟩

/-- C2, amended: a line inside a block that matches an allowed
row-name prefix but whose field token counts fall outside the
recognized shapes raises a ValueError that propagates out of the scan:
the whole scan of the remaining stream fails with that error and no row
(from this or any other line) is returned. -/
theorem c2_amended_error_aborts (fip : Chars) (st : ScanState) (line : Chars)
    (rest : List Chars) (e : PErr)
    (hin : st.in_block = true)
    (hd : matchDateLine line = none)
    (ho : openMatch fip line = none)
    (hc : closeMarkerCs.isPrefixOf line = false)
    (hm : (str2cs sLeftMargin).isPrefixOf line = true)
    (hdash : (str2cs sLeftMarginDashes).isPrefixOf line = false)
    (hp : report_block_lineparser line = .error e) :
    scan fip st (line :: rest) = .error e := by
  simp [scan, processLine, hin, hd, ho, hc, hm, hdash, hp, Bind.bind, Except.bind]

/-- Witness for C2 amended: the concrete malformed oil field aborts a
concrete scan. -/
theorem c2_amended_error_aborts_witness :
    scan (str2cs sFIPNUM) ⟨none, true, some 2⟩
      [str2cs lineOilFourTokens, str2cs lineCurrentlyInPlace] = .error .unpackValueError :=
  c2_amended_error_aborts _ _ _ _ _ (by decide) (by decide) (by decide) (by decide)
    (by decide) (by decide) (by decide)

/-- C7, counterexample: a line inside a block that begins with the
left-margin marker and is not a dashed separator row, yet matches no
allowed row-name prefix, is not skipped: `list(None)` raises a
TypeError and the scan aborts. -/
theorem c7_unknown_margin_line_raises :
    (str2cs sLeftMargin).isPrefixOf (str2cs lineUnknownRow) = true ∧
    (str2cs sLeftMarginDashes).isPrefixOf (str2cs lineUnknownRow) = false ∧
    allowed_line_starts.any (fun p => p.isPrefixOf (str2cs lineUnknownRow)) = false ∧
    df (str2cs sFIPNUM) [str2cs lineBlockOpen2, str2cs lineUnknownRow] = .error .typeError := by
  refine ⟨by decide, by decide, by decide, by decide⟩

/-- C7, amended: inside a block, a line that does not begin with the
left-margin marker, or that is a dashed separator row, is skipped
without error and without emitting a row (state unchanged); only a
margin-marked line that matches no allowed row-name raises. -/
theorem c7_amended_skip (fip : Chars) (st : ScanState) (line : Chars)
    (hin : st.in_block = true)
    (hd : matchDateLine line = none)
    (ho : openMatch fip line = none)
    (hc : closeMarkerCs.isPrefixOf line = false)
    (hskip : (str2cs sLeftMargin).isPrefixOf line = false ∨
             (str2cs sLeftMarginDashes).isPrefixOf line = true) :
    processLine fip st line = .ok (st, none) := by
  rcases hskip with h | h
  · simp [processLine, hd, ho, hc, hin, h]
  · simp [processLine, hd, ho, hc, hin, h]

/-- Witness for C7 amended: a concrete dashed separator row is
skipped with the state unchanged. -/
theorem c7_amended_skip_witness :
    processLine (str2cs sFIPNUM) ⟨none, true, some 2⟩ lineDashedRowCs =
      .ok (⟨none, true, some 2⟩, none) :=
  c7_amended_skip _ _ _ (by decide) (by decide) (by decide) (by decide) (Or.inr (by decide))


/-- Helper: a bind in `Except` that succeeds has a succeeding head. -/
theorem except_bind_ok {e1 a b : Type} (x : Except e1 a) (f : a → Except e1 b) (v : b)
    (h : x >>= f = .ok v) : ∃ u, x = .ok u ∧ f u = .ok v := by
  cases x with
  | error e => simp [Bind.bind, Except.bind] at h
  | ok u => exact ⟨u, rfl, h⟩

/-- Helper: a line that is not a block-open line never changes the
stored region index, and any record it emits carries the state's
region index. -/
theorem processLine_region (fip : Chars) (st : ScanState) (line : Chars)
    (st2 : ScanState) (rec? : Option FipRecord)
    (ho : openMatch fip line = none)
    (h : processLine fip st line = .ok (st2, rec?)) :
    st2.region_index = st.region_index ∧
      ∀ rec, rec? = some rec → rec.region_index = st.region_index := by
  unfold processLine at h
  split at h
  · obtain ⟨d, hb, h2⟩ := except_bind_ok _ _ _ h
    simp only [Except.ok.injEq, Prod.mk.injEq] at h2
    obtain ⟨hst, hrec⟩ := h2
    subst hst
    constructor
    · rfl
    · intro rec hr; rw [← hrec] at hr; cases hr
  · rw [ho] at h
    split at h
    · rename_i r heq; cases heq
    · split at h
      · simp only [Except.ok.injEq, Prod.mk.injEq] at h
        obtain ⟨hst, hrec⟩ := h
        subst hst
        exact ⟨rfl, by intro rec hr; rw [← hrec] at hr; cases hr⟩
      · split at h
        · split at h
          · split at h
            · exact absurd h (by simp)
            · exact absurd h (by simp)
            · simp only [Except.ok.injEq, Prod.mk.injEq] at h
              obtain ⟨hst, hrec⟩ := h
              subst hst
              refine ⟨rfl, ?_⟩
              intro rec hr
              rw [← hrec] at hr
              cases hr
              rfl
          · simp only [Except.ok.injEq, Prod.mk.injEq] at h
            obtain ⟨hst, hrec⟩ := h
            subst hst
            exact ⟨rfl, by intro rec hr; rw [← hrec] at hr; cases hr⟩
        · simp only [Except.ok.injEq, Prod.mk.injEq] at h
          obtain ⟨hst, hrec⟩ := h
          subst hst
          exact ⟨rfl, by intro rec hr; rw [← hrec] at hr; cases hr⟩


/-- Helper: scanning lines among which no block-open line occurs, from
a state with region index r, only emits records with region index r. -/
theorem scan_region_stable (fip : Chars) (r : Nat) :
    ∀ (ls : List Chars) (st : ScanState) (recs : List FipRecord),
      st.region_index = some r → (∀ l ∈ ls, openMatch fip l = none) →
      scan fip st ls = .ok recs → ∀ rec ∈ recs, rec.region_index = some r := by
  intro ls
  induction ls with
  | nil =>
    intro st recs _ _ hs rec hm
    simp only [scan, Except.ok.injEq] at hs
    subst hs
    cases hm
  | cons l ls ih =>
    intro st recs hreg hop hs rec hmem
    simp only [scan] at hs
    obtain ⟨⟨st2, rec?⟩, hp, h2⟩ := except_bind_ok _ _ _ hs
    obtain ⟨rest, hrest, h3⟩ := except_bind_ok _ _ _ h2
    simp only [Except.ok.injEq] at h3
    subst h3
    obtain ⟨hst2, hrec⟩ := processLine_region fip st l st2 rec? (hop l (by simp)) hp
    rcases List.mem_append.mp hmem with hmem1 | hmem2
    · cases hq : rec? with
      | none => rw [hq] at hmem1; cases hmem1
      | some rc =>
        rw [hq] at hmem1
        simp only [Option.toList_some, List.mem_singleton] at hmem1
        rw [hmem1, hrec _ hq, hreg]
    · exact ih st2 rest (hst2.trans hreg) (fun x hx => hop x (by simp [hx])) hrest rec hmem2

/-- C9: in a stream where a block-close marker line is immediately
followed by a block-open line for a (different) region index r, no
emitted row carries the previous region index and every emitted row
carries the new region index r (the close and open lines themselves
emit nothing, and region r governs all rows until another block-open
line, of which the remaining stream has none). -/
theorem c9_no_region_leak (fip : Chars) (st : ScanState) (closeLine openLine : Chars)
    (rest : List Chars) (r rprev : Nat) (recs : List FipRecord)
    (_hprev : st.region_index = some rprev) (hne : rprev ≠ r)
    (hd1 : matchDateLine closeLine = none) (ho1 : openMatch fip closeLine = none)
    (hc1 : closeMarkerCs.isPrefixOf closeLine = true)
    (hd2 : matchDateLine openLine = none) (ho2 : openMatch fip openLine = some r)
    (hrest : ∀ l ∈ rest, openMatch fip l = none)
    (hs : scan fip st (closeLine :: openLine :: rest) = .ok recs) :
    ∀ rec ∈ recs, rec.region_index = some r ∧ rec.region_index ≠ some rprev := by
  have hp1 : processLine fip st closeLine = .ok ({ st with in_block := false }, none) := by
    simp [processLine, hd1, ho1, hc1]
  have hp2 : processLine fip { st with in_block := false } openLine =
      .ok ({ st with in_block := true, region_index := some r }, none) := by
    simp [processLine, hd2, ho2]
  simp only [scan, hp1, hp2, Bind.bind, Except.bind, Option.toList_none, List.nil_append] at hs
  cases h3 : scan fip { st with in_block := true, region_index := some r } rest with
  | error e => rw [h3] at hs; cases hs
  | ok rest2 =>
    rw [h3] at hs
    simp only [Except.ok.injEq] at hs
    subst hs
    intro rec hm
    have := scan_region_stable fip r rest
      { st with in_block := true, region_index := some r } rest2 rfl hrest h3 rec hm
    refine ⟨this, ?_⟩
    rw [this]
    intro hcon
    simp only [Option.some.injEq] at hcon
    exact hne hcon.symm


/-- Witness for C9: after a concrete close marker and a block-open line
for region 2, the row scanned from a concrete data line carries region
index 2 and not the previous region index 5. -/
theorem c9_no_region_leak_witness :
    recRegion2.region_index = some 2 ∧ recRegion2.region_index ≠ some 5 :=
  c9_no_region_leak (str2cs sFIPNUM) ⟨none, true, some 5⟩ lineBlockCloseCs
    (str2cs lineBlockOpen2) [str2cs lineCurrentlyInPlace] 2 5 [recRegion2]
    (by decide) (by decide) (by decide) (by decide) (by decide) (by decide) (by decide)
    (fun l hl => by
      simp only [List.mem_singleton] at hl
      subst hl
      decide)
    (by decide) recRegion2 (by simp)


/-- Helper: `orRaise` succeeds exactly on `some`. -/
theorem orRaise_ok {α : Type} (e : PErr) (o : Option α) (v : α) :
    orRaise e o = .ok v ↔ o = some v := by
  cases o <;> simp [orRaise]

/-- Helper: the head piece of `splitOnChar` is a prefix of the input and
every later piece is an infix of the input. -/
theorem splitOnChar_cases (sep : Char) :
    ∀ (l : Chars) (p : Chars) (ps : List Chars), splitOnChar sep l = p :: ps →
      p <+: l ∧ ∀ x ∈ ps, x <:+: l := by
  intro l
  induction l with
  | nil =>
    intro p ps h
    simp only [splitOnChar, List.cons.injEq] at h
    obtain ⟨h1, h2⟩ := h
    subst h1; subst h2
    exact ⟨List.nil_prefix, by intro x hx; cases hx⟩
  | cons c cs ih =>
    intro p ps h
    simp only [splitOnChar] at h
    by_cases hc : (c == sep) = true
    · rw [if_pos hc] at h
      simp only [List.cons.injEq] at h
      obtain ⟨h1, h2⟩ := h
      subst h1
      refine ⟨List.nil_prefix, ?_⟩
      intro x hx
      rw [← h2] at hx
      cases hsp : splitOnChar sep cs with
      | nil => rw [hsp] at hx; cases hx
      | cons p2 ps2 =>
        rw [hsp] at hx
        obtain ⟨hpre, hinf⟩ := ih p2 ps2 hsp
        rcases List.mem_cons.mp hx with rfl | hx2
        · exact List.infix_cons hpre.isInfix
        · exact List.infix_cons (hinf x hx2)
    · rw [if_neg hc] at h
      cases hsp : splitOnChar sep cs with
      | nil =>
        rw [hsp] at h
        simp only [List.cons.injEq] at h
        obtain ⟨h1, h2⟩ := h
        subst h1; subst h2
        exact ⟨List.cons_prefix_cons.mpr ⟨rfl, List.nil_prefix⟩, by intro x hx; cases hx⟩
      | cons p2 ps2 =>
        rw [hsp] at h
        simp only [List.cons.injEq] at h
        obtain ⟨h1, h2⟩ := h
        subst h1; subst h2
        obtain ⟨hpre, hinf⟩ := ih p2 ps2 hsp
        exact ⟨List.cons_prefix_cons.mpr ⟨rfl, hpre⟩,
               fun x hx => List.infix_cons (hinf x hx)⟩

/-- Helper: every piece of `splitOnChar` is an infix of the input. -/
theorem splitOnChar_infix_of_mem (sep : Char) (l x : Chars)
    (h : x ∈ splitOnChar sep l) : x <:+: l := by
  cases hsp : splitOnChar sep l with
  | nil => rw [hsp] at h; cases h
  | cons p ps =>
    rw [hsp] at h
    obtain ⟨hpre, hinf⟩ := splitOnChar_cases sep l p ps hsp
    rcases List.mem_cons.mp h with rfl | h2
    · exact hpre.isInfix
    · exact hinf x h2

/-- Helper: stripping whitespace yields an infix of the input. -/
theorem pyStrip_infix_self (s : Chars) : pyStrip s <:+: s := by
  have d1 : s.dropWhile isPySpace <:+ s := List.dropWhile_suffix _
  have d2 : (s.dropWhile isPySpace).reverse.dropWhile isPySpace <:+
      (s.dropWhile isPySpace).reverse := List.dropWhile_suffix _
  have d3 : ((s.dropWhile isPySpace).reverse.dropWhile isPySpace).reverse <+:
      s.dropWhile isPySpace := by
    rw [← List.reverse_suffix]
    simpa using d2
  exact (d3.isInfix).trans d1.isInfix

/-- Helper: `containsSub` decides the infix relation, i.e. the Python
`in` operator on strings. -/
theorem containsSub_iff (n h : Chars) : containsSub n h = true ↔ n <:+: h := by
  induction h with
  | nil =>
    simp only [containsSub, List.isEmpty_iff]
    constructor
    · intro hh; rw [hh]
    · intro hh; exact List.eq_nil_of_infix_nil hh
  | cons c cs ih =>
    simp only [containsSub, Bool.or_eq_true, List.isPrefixOf_iff_prefix, ih]
    rw [List.infix_cons_iff]


/-- C6: for every emitted report row, `to_region` is set if and only if
the row kind is OUTFLOW TO REGION, and every OUTFLOW TO REGION row
carries the integer parsed from the fourth whitespace-separated token of
the row-label field. -/
theorem c6_to_region_iff (line : Chars) (row : ReportRow)
    (h : report_block_lineparser line = .ok (some row)) :
    (row.to_region ≠ none ↔ row.row_name = str2cs sOutflowToRegion) ∧
    (∀ r, row.to_region = some r →
      ∃ sec1 tok, (splitOnChar ':' line).get? 1 = some sec1 ∧
        (pyWords sec1).get? 3 = some tok ∧ parsePyInt tok = .ok r) := by
  unfold report_block_lineparser at h
  split at h
  · exact absurd h (by simp)
  · simp only [] at h
    split at h
    · rename_i hcond
      rcases except_bind_ok _ _ _ h with ⟨sec1, hsec1, h2⟩
      rcases except_bind_ok _ _ _ h2 with ⟨tok, htok, h3⟩
      rcases except_bind_ok _ _ _ h3 with ⟨ti, hti, h4⟩
      rcases except_bind_ok _ _ _ h4 with ⟨y, hy, h5⟩
      have hy2 : y = (str2cs sOutflowToRegion, some ti) := by
        simp only [Pure.pure, Except.pure, Except.ok.injEq] at hy
        exact hy.symm
      subst hy2
      simp only [] at h5
      rcases except_bind_ok _ _ _ h5 with ⟨sec2, hsec2, h6⟩
      rcases except_bind_ok _ _ _ h6 with ⟨⟨lq, vp, ot⟩, hoil, h7⟩
      simp only [] at h7
      rcases except_bind_ok _ _ _ h7 with ⟨sec3, hsec3, h8⟩
      rcases except_bind_ok _ _ _ h8 with ⟨tw, htw, h9⟩
      rcases except_bind_ok _ _ _ h9 with ⟨sec4, hsec4, h10⟩
      rcases except_bind_ok _ _ _ h10 with ⟨⟨fg, dg, tg⟩, hgas, h11⟩
      simp only [Pure.pure, Except.pure, Except.ok.injEq, Option.some.injEq] at h11
      have hrow := h11.symm
      subst hrow
      refine ⟨by simp, ?_⟩
      intro r hr
      simp only [Option.some.injEq] at hr
      subst hr
      exact ⟨sec1, tok, (orRaise_ok _ _ _).mp hsec1, (orRaise_ok _ _ _).mp htok, hti⟩
    · rename_i hcond
      rcases except_bind_ok _ _ _ h with ⟨sec1, hsec1, h2⟩
      rcases except_bind_ok _ _ _ h2 with ⟨y, hy, h3⟩
      have hy2 : y = (pyStrip sec1, none) := by
        simp only [Pure.pure, Except.pure, Except.ok.injEq] at hy
        exact hy.symm
      subst hy2
      simp only [] at h3
      rcases except_bind_ok _ _ _ h3 with ⟨sec2, hsec2, h4⟩
      rcases except_bind_ok _ _ _ h4 with ⟨⟨lq, vp, ot⟩, hoil, h5⟩
      simp only [] at h5
      rcases except_bind_ok _ _ _ h5 with ⟨sec3, hsec3, h6⟩
      rcases except_bind_ok _ _ _ h6 with ⟨tw, htw, h7⟩
      rcases except_bind_ok _ _ _ h7 with ⟨sec4, hsec4, h8⟩
      rcases except_bind_ok _ _ _ h8 with ⟨⟨fg, dg, tg⟩, hgas, h9⟩
      simp only [Pure.pure, Except.pure, Except.ok.injEq, Option.some.injEq] at h9
      have hrow := h9.symm
      subst hrow
      refine ⟨?_, ?_⟩
      · simp only [ne_eq, not_true_eq_false, false_iff]
        intro heq
        apply hcond
        have hmem : sec1 ∈ splitOnChar ':' line :=
          List.get?_mem ((orRaise_ok _ _ _).mp hsec1)
        have hinf : str2cs sOutflowToRegion <:+: line := by
          rw [← heq]
          exact (pyStrip_infix_self sec1).trans (splitOnChar_infix_of_mem ':' line sec1 hmem)
        exact (containsSub_iff _ _).mpr hinf
      · intro r hr
        cases hr


/-- Witness for C6: the concrete OUTFLOW TO REGION row satisfies the
iff. -/
theorem c6_to_region_iff_witness :
    (rowOutflowRegion1.to_region ≠ none ↔
      rowOutflowRegion1.row_name = str2cs sOutflowToRegion) :=
  (c6_to_region_iff (str2cs lineOutflowToRegion) rowOutflowRegion1 (by decide)).1

/-- C8: injecting a candidate count n into a deck text in which TABDIMS
does not occur returns the minimal TABDIMS record (first field
defaulted, n at the dimension position) textually prepended to the
original deck text, which appears unchanged as a suffix.  The operation
is a pure function of the text, so the original deck text value is not
mutated. -/
theorem c8_inject_prepends (d : Chars) (n : Nat)
    (h : containsSub (str2cs sTABDIMS) d = false) :
    inject_ntpvt d n =
      (str2cs sTabdimsPre ++ (Nat.repr n).data ++ str2cs sTabdimsPost) ++ d ∧
    d <:+ inject_ntpvt d n := by
  constructor
  · simp [inject_ntpvt, h]
  · rw [inject_ntpvt, if_neg (by simp [h])]
    exact ⟨str2cs sTabdimsPre ++ (Nat.repr n).data ++ str2cs sTabdimsPost, by simp⟩

/-- Witness for C8: a concrete SWOF-only deck text with candidate 2. -/
theorem c8_inject_prepends_witness :
    inject_ntpvt (str2cs sSwofDeck) 2 =
      (str2cs sTabdimsPre ++ (Nat.repr 2).data ++ str2cs sTabdimsPost) ++ str2cs sSwofDeck ∧
    str2cs sSwofDeck <:+ inject_ntpvt (str2cs sSwofDeck) 2 :=
  c8_inject_prepends (str2cs sSwofDeck) 2 (by decide)

/-- Helper: a successful guess is a validated candidate, and a failed
guess is exactly AmbiguousDimension. -/
theorem guess_dim_spec (parseOk : Nat → Bool) (lo hi : Nat) :
    (∀ c, guess_dim parseOk lo hi = .ok c → parseOk c = true) ∧
    (∀ e, guess_dim parseOk lo hi = .error e → e = .ambiguousDimension) := by
  constructor
  · intro c hc
    unfold guess_dim at hc
    cases hf : (List.range' lo (hi + 1 - lo)).find? parseOk with
    | none => rw [hf] at hc; cases hc
    | some c2 =>
      rw [hf] at hc
      simp only [Except.ok.injEq] at hc
      subst hc
      exact List.find?_some hf
  · intro e he
    unfold guess_dim at he
    cases hf : (List.range' lo (hi + 1 - lo)).find? parseOk with
    | none =>
      rw [hf] at he
      simp only [Except.error.injEq] at he
      exact he.symm
    | some c2 => rw [hf] at he; cases he

/-- C4, counterexample: for an already-parsed (non-string) deck without
TABDIMS and no caller-supplied count, the resolution silently sets the
count to 1 (with only a critical log) even though, with the same trial
parser, inference would have failed with AmbiguousDimension; the claim
that the count is never silently resolved to 1 is false. -/
theorem c4_parsed_deck_silent_one :
    density_dim_resolution (.parsed deckNoTabdims) none (fun _ => false) 100 =
      .ok .silentOne ∧
    guess_dim (fun _ => false) 1 100 = .error .ambiguousDimension := by
  refine ⟨by decide, by decide⟩

/-- C4, amended: for a string deck in which TABDIMS does not occur and
a falsy (absent or zero) caller count, dimension resolution either
returns a candidate count validated by the trial re-parse or fails
with AmbiguousDimension surfaced to the caller; for already-parsed
decks the count is instead silently resolved to 1. -/
theorem c4_amended_string_deck_inference (sdeck : Chars) (cnt : Option Nat)
    (parseOk : Nat → Bool) (ceiling : Nat)
    (htab : containsSub (str2cs sTABDIMS) sdeck = false)
    (hcnt : pyFalsy cnt = true) :
    ((∃ c, density_dim_resolution (.str sdeck) cnt parseOk ceiling = .ok (.guessed c) ∧
        parseOk c = true) ∨
      density_dim_resolution (.str sdeck) cnt parseOk ceiling =
        .error .ambiguousDimension) ∧
    (∀ d cnt2, density_dim_resolution (.parsed d) cnt2 parseOk ceiling =
      if hasKw d sTABDIMS then .ok .declared else .ok .silentOne) := by
  constructor
  · unfold density_dim_resolution
    simp only [tabdimsIn, htab, Bool.false_eq_true, if_false, hcnt, if_true]
    cases hg : guess_dim parseOk 1 ceiling with
    | ok c =>
      exact Or.inl ⟨c, rfl, (guess_dim_spec parseOk 1 ceiling).1 c hg⟩
    | error e =>
      have he := (guess_dim_spec parseOk 1 ceiling).2 e hg
      subst he
      exact Or.inr rfl
  · intro d cnt2
    unfold density_dim_resolution
    by_cases hk : hasKw d sTABDIMS
    · simp [tabdimsIn, hk]
    · simp [tabdimsIn, hk]

/-- Witness for C4 amended: on a concrete TABDIMS-free string deck with
trial parser accepting exactly 3, the resolution returns the validated
guess. -/
theorem c4_amended_witness :
    ((∃ c, density_dim_resolution (.str (str2cs sSwofDeck)) none (fun n => n == 3) 9 =
        .ok (.guessed c) ∧ (fun n => n == 3) c = true) ∨
      density_dim_resolution (.str (str2cs sSwofDeck)) none (fun n => n == 3) 9 =
        .error .ambiguousDimension) ∧
    (∀ d cnt2, density_dim_resolution (.parsed d) cnt2 (fun n => n == 3) 9 =
      if hasKw d sTABDIMS then .ok .declared else .ok .silentOne) :=
  c4_amended_string_deck_inference (str2cs sSwofDeck) none (fun n => n == 3) 9
    (by decide) (by decide)

/-- C5: a deck holding TABDIMS, a DENSITY record whose flat data length
(3) is not a multiple of the DENSITY schema width (4), and a well-formed
PVTW sibling record, makes the whole `deck2df` return Python None: no
SchemaMismatch error object is surfaced and the sibling PVTW rows are
not returned either.  Moreover a deck whose DENSITY record is
well-formed crashes on the never-assigned variable `satnum`, so sibling
keywords cannot extract successfully on any path. -/
theorem c5_mismatch_aborts_extraction :
    hasKw deckMismatchFirst sPVTW = true ∧
    deck2df failOracleOpt failOracle (fun _ => false) 100
      (.parsed deckMismatchFirst) none = .ok none ∧
    deck2df failOracleOpt failOracle (fun _ => false) 100
      (.parsed deckWellFormedDensity) none = .error .nameError := by
  refine ⟨by decide, by decide, by decide⟩


/-- Helper: `parsePyFloatExpTail` only raises the float ValueError. -/
theorem parsePyFloatExpTail_error (m : Int) (flen : Nat) (eneg : Bool) (r2 : Chars)
    (e : PErr) (h : parsePyFloatExpTail m flen eneg r2 = .error e) :
    e = .floatValueError := by
  unfold parsePyFloatExpTail at h
  repeat' split at h
  all_goals simp_all

/-- Helper: `parsePyFloatExp` only raises the float ValueError. -/
theorem parsePyFloatExp_error (neg : Bool) (ip fp t2 : Chars) (e : PErr)
    (h : parsePyFloatExp neg ip fp t2 = .error e) : e = .floatValueError := by
  unfold parsePyFloatExp at h
  repeat' split at h
  all_goals try simp_all
  all_goals exact parsePyFloatExpTail_error _ _ _ _ _ h

/-- Helper: `parsePyFloat` only raises the float ValueError. -/
theorem parsePyFloat_error (s : Chars) (e : PErr) (h : parsePyFloat s = .error e) :
    e = .floatValueError := by
  unfold parsePyFloat at h
  split at h
  all_goals
    unfold parsePyFloatBody at h
    split at h
    all_goals exact parsePyFloatExp_error _ _ _ _ _ h

/-- Helper: `parsePyInt` only raises the int ValueError. -/
theorem parsePyInt_error (s : Chars) (e : PErr) (h : parsePyInt s = .error e) :
    e = .intValueError := by
  unfold parsePyInt at h
  split at h
  all_goals
    unfold parsePyIntBody at h
    split at h
    all_goals simp_all


/-- Helper: `orRaise` only raises the error it is given. -/
theorem orRaise_error {α : Type} (e0 : PErr) (o : Option α) (e : PErr)
    (h : orRaise e0 o = .error e) : e = e0 := by
  cases o <;> simp_all [orRaise]

/-- Helper: composing errors through a bind preserves `NotFip`. -/
theorem notfip_bind {a b : Type} {x : Except PErr a} {f : a → Except PErr b} {e : PErr}
    (h : x >>= f = .error e)
    (hx : ∀ e2, x = .error e2 → NotFip e2)
    (hf : ∀ v, f v = .error e → NotFip e) : NotFip e := by
  rcases except_bind_error _ _ _ h with h1 | ⟨v, hv, h2⟩
  · exact hx e h1
  · exact hf v h2

/-- Helper: errors of `parsePyFloat` are not fipname errors. -/
theorem parsePyFloat_notfip (s : Chars) (e : PErr) (h : parsePyFloat s = .error e) :
    NotFip e := by
  rw [parsePyFloat_error s e h]; exact ⟨by simp, by simp⟩

/-- Helper: errors of `parsePyInt` are not fipname errors. -/
theorem parsePyInt_notfip (s : Chars) (e : PErr) (h : parsePyInt s = .error e) :
    NotFip e := by
  rw [parsePyInt_error s e h]; exact ⟨by simp, by simp⟩

/-- Helper: errors of `orRaise` with the index error are not fipname
errors. -/
theorem orRaise_idx_notfip {α : Type} (o : Option α) (e : PErr)
    (h : orRaise .indexError o = .error e) : NotFip e := by
  rw [orRaise_error _ _ _ h]; exact ⟨by simp, by simp⟩

/-- Helper: errors of `parseOilField` are not fipname errors. -/
theorem parseOilField_notfip (sec : Chars) (e : PErr)
    (h : parseOilField sec = .error e) : NotFip e := by
  unfold parseOilField at h
  simp only [] at h
  split at h
  · split at h
    · refine notfip_bind h (fun e2 h2 => parsePyFloat_notfip _ _ h2) (fun v hv => ?_)
      refine notfip_bind hv (fun e2 h2 => parsePyFloat_notfip _ _ h2) (fun v2 hv2 => ?_)
      refine notfip_bind hv2 (fun e2 h2 => parsePyFloat_notfip _ _ h2) (fun v3 hv3 => ?_)
      simp [Pure.pure, Except.pure] at hv3
    · simp only [Except.error.injEq] at h
      subst h; exact ⟨by simp, by simp⟩
  · split at h
    · refine notfip_bind h (fun e2 h2 => parsePyFloat_notfip _ _ h2) (fun v hv => ?_)
      simp [Pure.pure, Except.pure] at hv
    · split at h
      · refine notfip_bind h (fun e2 h2 => parsePyFloat_notfip _ _ h2) (fun v hv => ?_)
        refine notfip_bind hv (fun e2 h2 => parsePyFloat_notfip _ _ h2) (fun v2 hv2 => ?_)
        simp [Pure.pure, Except.pure] at hv2
      · refine notfip_bind h (fun e2 h2 => parsePyFloat_notfip _ _ h2) (fun v hv => ?_)
        refine notfip_bind hv (fun e2 h2 => parsePyFloat_notfip _ _ h2) (fun v2 hv2 => ?_)
        refine notfip_bind hv2 (fun e2 h2 => parsePyFloat_notfip _ _ h2) (fun v3 hv3 => ?_)
        simp only [Except.error.injEq] at hv3
        subst hv3; exact ⟨by simp, by simp⟩
      · simp only [Except.error.injEq] at h
        subst h; exact ⟨by simp, by simp⟩

/-- Helper: errors of `parseGasField` are not fipname errors. -/
theorem parseGasField_notfip (sec : Chars) (e : PErr)
    (h : parseGasField sec = .error e) : NotFip e := by
  unfold parseGasField at h
  simp only [] at h
  split at h
  · refine notfip_bind h (fun e2 h2 => parsePyFloat_notfip _ _ h2) (fun v hv => ?_)
    simp [Pure.pure, Except.pure] at hv
  · split at h
    · refine notfip_bind h (fun e2 h2 => parsePyFloat_notfip _ _ h2) (fun v hv => ?_)
      refine notfip_bind hv (fun e2 h2 => parsePyFloat_notfip _ _ h2) (fun v2 hv2 => ?_)
      refine notfip_bind hv2 (fun e2 h2 => parsePyFloat_notfip _ _ h2) (fun v3 hv3 => ?_)
      simp [Pure.pure, Except.pure] at hv3
    · refine notfip_bind h (fun e2 h2 => parsePyFloat_notfip _ _ h2) (fun v hv => ?_)
      refine notfip_bind hv (fun e2 h2 => parsePyFloat_notfip _ _ h2) (fun v2 hv2 => ?_)
      simp only [Except.error.injEq] at hv2
      subst hv2; exact ⟨by simp, by simp⟩
    · refine notfip_bind h (fun e2 h2 => parsePyFloat_notfip _ _ h2) (fun v hv => ?_)
      refine notfip_bind hv (fun e2 h2 => parsePyFloat_notfip _ _ h2) (fun v2 hv2 => ?_)
      refine notfip_bind hv2 (fun e2 h2 => parsePyFloat_notfip _ _ h2) (fun v3 hv3 => ?_)
      refine notfip_bind hv3 (fun e2 h2 => parsePyFloat_notfip _ _ h2) (fun v4 hv4 => ?_)
      simp only [Except.error.injEq] at hv4
      subst hv4; exact ⟨by simp, by simp⟩
    · simp only [Except.error.injEq] at h
      subst h; exact ⟨by simp, by simp⟩

/-- Helper: errors of `report_block_lineparser` are not fipname
errors. -/
theorem report_block_lineparser_notfip (line : Chars) (e : PErr)
    (h : report_block_lineparser line = .error e) : NotFip e := by
  unfold report_block_lineparser at h
  split at h
  · simp at h
  · simp only [] at h
    split at h
    · refine notfip_bind h (fun e2 h2 => orRaise_idx_notfip _ _ h2) (fun v hv => ?_)
      refine notfip_bind hv (fun e2 h2 => orRaise_idx_notfip _ _ h2) (fun v2 hv2 => ?_)
      refine notfip_bind hv2 (fun e2 h2 => parsePyInt_notfip _ _ h2) (fun v3 hv3 => ?_)
      refine notfip_bind hv3 (fun e2 h2 => by simp [Pure.pure, Except.pure] at h2)
        (fun y hy => ?_)
      obtain ⟨rn, tr⟩ := y
      simp only [] at hy
      refine notfip_bind hy (fun e2 h2 => orRaise_idx_notfip _ _ h2) (fun v4 hv4 => ?_)
      refine notfip_bind hv4 (fun e2 h2 => parseOilField_notfip _ _ h2) (fun v5 hv5 => ?_)
      obtain ⟨lq, vp, ot⟩ := v5
      simp only [] at hv5
      refine notfip_bind hv5 (fun e2 h2 => orRaise_idx_notfip _ _ h2) (fun v6 hv6 => ?_)
      refine notfip_bind hv6 (fun e2 h2 => parsePyFloat_notfip _ _ h2) (fun v7 hv7 => ?_)
      refine notfip_bind hv7 (fun e2 h2 => orRaise_idx_notfip _ _ h2) (fun v8 hv8 => ?_)
      refine notfip_bind hv8 (fun e2 h2 => parseGasField_notfip _ _ h2) (fun v9 hv9 => ?_)
      obtain ⟨fg, dg, tg⟩ := v9
      simp [Pure.pure, Except.pure] at hv9
    · refine notfip_bind h (fun e2 h2 => orRaise_idx_notfip _ _ h2) (fun v hv => ?_)
      refine notfip_bind hv (fun e2 h2 => by simp [Pure.pure, Except.pure] at h2)
        (fun y hy => ?_)
      obtain ⟨rn, tr⟩ := y
      simp only [] at hy
      refine notfip_bind hy (fun e2 h2 => orRaise_idx_notfip _ _ h2) (fun v4 hv4 => ?_)
      refine notfip_bind hv4 (fun e2 h2 => parseOilField_notfip _ _ h2) (fun v5 hv5 => ?_)
      obtain ⟨lq, vp, ot⟩ := v5
      simp only [] at hv5
      refine notfip_bind hv5 (fun e2 h2 => orRaise_idx_notfip _ _ h2) (fun v6 hv6 => ?_)
      refine notfip_bind hv6 (fun e2 h2 => parsePyFloat_notfip _ _ h2) (fun v7 hv7 => ?_)
      refine notfip_bind hv7 (fun e2 h2 => orRaise_idx_notfip _ _ h2) (fun v8 hv8 => ?_)
      refine notfip_bind hv8 (fun e2 h2 => parseGasField_notfip _ _ h2) (fun v9 hv9 => ?_)
      obtain ⟨fg, dg, tg⟩ := v9
      simp [Pure.pure, Except.pure] at hv9

/-- Helper: errors of `parse_ecl_month` are not fipname errors. -/
theorem parse_ecl_month_notfip (m : Chars) (e : PErr)
    (h : parse_ecl_month m = .error e) : NotFip e := by
  unfold parse_ecl_month at h
  rw [orRaise_error _ _ _ h]
  exact ⟨by simp, by simp⟩

/-- Helper: errors of `buildDate` are not fipname errors. -/
theorem buildDate_notfip (year : Nat) (mon : Chars) (day : Nat) (e : PErr)
    (h : buildDate year mon day = .error e) : NotFip e := by
  unfold buildDate at h
  refine notfip_bind h (fun e2 h2 => parse_ecl_month_notfip _ _ h2) (fun v hv => ?_)
  split at hv
  · simp at hv
  · simp only [Except.error.injEq] at hv
    subst hv; exact ⟨by simp, by simp⟩

/-- Helper: errors of the per-line scan step are not fipname errors. -/
theorem processLine_notfip (fip : Chars) (st : ScanState) (line : Chars) (e : PErr)
    (h : processLine fip st line = .error e) : NotFip e := by
  unfold processLine at h
  split at h
  · refine notfip_bind h (fun e2 h2 => buildDate_notfip _ _ _ _ h2) (fun v hv => ?_)
    simp at hv
  · split at h
    · simp at h
    · split at h
      · simp at h
      · split at h
        · split at h
          · split at h
            · simp only [Except.error.injEq] at h
              subst h
              exact report_block_lineparser_notfip line _ (by assumption)
            · simp only [Except.error.injEq] at h
              subst h; exact ⟨by simp, by simp⟩
            · simp at h
          · simp at h
        · simp at h

/-- Helper: errors of the whole scan are not fipname errors. -/
theorem scan_notfip (fip : Chars) :
    ∀ (ls : List Chars) (st : ScanState) (e : PErr),
      scan fip st ls = .error e → NotFip e := by
  intro ls
  induction ls with
  | nil => intro st e h; simp [scan] at h
  | cons l ls ih =>
    intro st e h
    simp only [scan] at h
    refine notfip_bind h (fun e2 h2 => processLine_notfip _ _ _ _ h2) (fun v hv => ?_)
    obtain ⟨st2, rec?⟩ := v
    simp only [] at hv
    refine notfip_bind hv (fun e2 h2 => ih st2 e2 h2) (fun v2 hv2 => ?_)
    simp at hv2

/-- C10: the entry point `df` raises a ValueError before reading any
input line when `fipname` does not start with FIP or is longer than 8
characters (the result is the validation error for every list of input
lines); for a valid `fipname` neither fipname-validation error is ever
raised. -/
theorem c10_fipname_validation (fip : Chars) (lines : List Chars) :
    ((str2cs sFIP).isPrefixOf fip = false → df fip lines = .error .fipStartValueError) ∧
    ((str2cs sFIP).isPrefixOf fip = true → fip.length > 8 →
      df fip lines = .error .fipLenValueError) ∧
    ((str2cs sFIP).isPrefixOf fip = true → fip.length ≤ 8 → ∀ e,
      df fip lines = .error e →
      e ≠ .fipStartValueError ∧ e ≠ .fipLenValueError) := by
  refine ⟨?_, ?_, ?_⟩
  · intro h1
    simp [df, h1]
  · intro h1 h2
    simp [df, h1, h2]
  · intro h1 h2 e he
    rw [df, if_neg (by simp [h1]), if_neg (by simp; omega)] at he
    exact scan_notfip fip lines ⟨none, false, none⟩ e he

/-- Witness for C10: a non-FIP name is rejected for a concrete stream,
and a valid name produces only a non-fipname error on a concrete
stream. -/
theorem c10_fipname_validation_witness :
    df (str2cs sNotFipName) [str2cs lineBlockOpen2] = .error .fipStartValueError ∧
    (PErr.typeError ≠ PErr.fipStartValueError ∧ PErr.typeError ≠ PErr.fipLenValueError) :=
  ⟨(c10_fipname_validation (str2cs sNotFipName) [str2cs lineBlockOpen2]).1 (by decide),
   (c10_fipname_validation (str2cs sFIPNUM)
       [str2cs lineBlockOpen2, str2cs lineUnknownRow]).2.2
     (by decide) (by decide) PErr.typeError (by decide)⟩

end Ecl2df
